import Mathlib

/-
  Verification development for `inat.photodownloader.py` (iNaturalist photo /
  photo-filename downloader).

  The script's pure logic is shallowly embedded below: Python strings become
  `String`, Python lists become `List`, Python `None`-able values become
  `Option`, the wall clock of the rate limiter becomes `ℚ`, and each fallible
  network call becomes an explicit outcome parameter.  Every definition is
  translated from the source file; definitions that model a claim's wording
  (rather than the source) say so in their doc comment.
-/

/-! ## String helpers: models of the Python `str` primitives the script uses -/

/-- Model of Python prefix test on character lists: `startsWithChars s pat`
is `true` iff `pat` is a prefix of `s`. -/
def startsWithChars : List Char → List Char → Bool
  | _, [] => true
  | [], _ :: _ => false
  | c :: cs, p :: ps => c == p && startsWithChars cs ps

/-- Model of Python `pat in s` (substring containment) on character lists. -/
def charsContain (pat : List Char) : List Char → Bool
  | [] => pat.isEmpty
  | c :: rest => startsWithChars (c :: rest) pat || charsContain pat rest

/-- Model of Python `pat in s` for strings. -/
def strContains (s pat : String) : Bool := charsContain pat.toList s.toList

/-- Model of Python `s.startswith(pre)`. -/
def strStartsWith (s pre : String) : Bool := startsWithChars s.toList pre.toList

/-- Model of Python `s.endswith(suf)`. -/
def strEndsWith (s suf : String) : Bool :=
  startsWithChars s.toList.reverse suf.toList.reverse

/-- Model of Python `s.lower()` (ASCII case folding). -/
def strToLower (s : String) : String := String.mk (s.toList.map Char.toLower)

/-- Model of Python `s.strip()`: drop whitespace from both ends. -/
def strTrim (s : String) : String :=
  String.mk (((s.toList.dropWhile Char.isWhitespace).reverse.dropWhile
    Char.isWhitespace).reverse)

/-- Index of the last occurrence of a character (Python `s.rfind(c)` when
present). -/
def lastIdxOf (c : Char) : List Char → Option Nat
  | [] => none
  | x :: rest =>
      match lastIdxOf c rest with
      | some i => some (i + 1)
      | none => if x == c then some 0 else none

/-- Index of the first occurrence of a substring (Python `s.find(pat)` when
present). -/
def idxOfSub (pat : List Char) : List Char → Option Nat
  | [] => if pat.isEmpty then some 0 else none
  | c :: rest =>
      if startsWithChars (c :: rest) pat then some 0
      else (idxOfSub pat rest).map (· + 1)

/-- Model of Python `os.path.splitext` (posix rules: the extension starts at
the last dot, but a run of leading dots of the basename never starts an
extension). -/
def splitext (p : String) : String × String :=
  let l := p.toList
  let sepIdx : Int := match lastIdxOf '/' l with | none => -1 | some i => (i : Int)
  let dotIdx : Int := match lastIdxOf '.' l with | none => -1 | some i => (i : Int)
  if sepIdx < dotIdx then
    let start := (sepIdx + 1).toNat
    let mid := (l.drop start).take (dotIdx.toNat - start)
    if mid.any (fun c => c != '.') then
      (String.mk (l.take dotIdx.toNat), String.mk (l.drop dotIdx.toNat))
    else (p, "")
  else (p, "")

/-- Scheme-plus-authority part of an absolute URL (`https://host`), used by the
`urljoin` model. -/
def originChars (base : List Char) : List Char :=
  match idxOfSub "://".toList base with
  | none => base
  | some i =>
      let afterIdx := i + 3
      base.take (afterIdx + ((base.drop afterIdx).takeWhile (fun c => c != '/')).length)

/-- Model of the `urllib.parse.urljoin` collaborator for the URL shapes this
program encounters: absolute hrefs are kept, root-relative hrefs are attached
to the base's origin, other hrefs replace the base's last path segment. -/
def urljoin (base href : String) : String :=
  if href.isEmpty then base
  else if (idxOfSub "://".toList href.toList).isSome then href
  else
    let b := base.toList
    let origin := originChars b
    if strStartsWith href "//" then
      match idxOfSub "://".toList b with
      | some i => String.mk (b.take (i + 1)) ++ href
      | none => href
    else if strStartsWith href "/" then String.mk origin ++ href
    else
      let rest := b.drop origin.length
      match lastIdxOf '/' rest with
      | some j => String.mk (b.take (origin.length + j + 1)) ++ href
      | none => String.mk origin ++ "/" ++ href

/-- Path component of an absolute URL (between the authority and any query or
fragment).  Models the claim's phrase "the link's path"; the source itself
never extracts the path. -/
def pathOf (u : String) : String :=
  let l := u.toList
  String.mk ((l.drop (originChars l).length).takeWhile (fun c => c != '?' && c != '#'))

/-! ## Constants (source lines 94-106) -/

/-- Source constant `BASE_API_URL`. -/
def BASE_API_URL : String := "https://api.inaturalist.org/v1/observations"

/-- Source constant `INAT_PHOTO_PAGE_URL_BASE`. -/
def INAT_PHOTO_PAGE_URL_BASE : String := "https://www.inaturalist.org/photos/"

/-- Source constant `S3_PHOTO_URL_BASE`. -/
def S3_PHOTO_URL_BASE : String := "https://inaturalist-open-data.s3.amazonaws.com/photos/"

/-- Source constant `S3_ATTEMPT_EXTENSIONS` (source line 99). -/
def S3_ATTEMPT_EXTENSIONS : List String := [".jpeg", ".jpg", ".png", ".gif"]

/-- Source constant `HTML_IMG_ID_SELECTOR`. -/
def HTML_IMG_ID_SELECTOR : String := "photo"

/-- Source constant `HTML_A_TAG_ORIGINAL_TEXT`. -/
def HTML_A_TAG_ORIGINAL_TEXT : String := "original"

/-- Source constant `HTML_A_TAG_SIZE_ORIGINAL_SUBSTRING`. -/
def HTML_A_TAG_SIZE_ORIGINAL_SUBSTRING : String := "size=original"

/-- Source constant `API_PHOTOS_PATH_SEGMENT`. -/
def API_PHOTOS_PATH_SEGMENT : String := "/photos/"

/-! ## `get_observation_ids` (source lines 180-210)

The API server is modelled as the list of `results` id-lists it returns for
pages 1, 2, ...; past the end of that list every further page is empty, which
matches a server that has been exhausted.  `limit` is `Option Int` because
`args.limit` is either `None` or an arbitrary Python `int`, and the source
tests it by truthiness (`if limit and len(ids) >= limit`), so a limit of `0`
is falsy. -/

/-- Truthiness-guarded limit test from source lines 202 and 205:
`limit and len(ids) >= limit`. -/
def limitReached (limit : Option Int) (n : Nat) : Bool :=
  match limit with
  | none => false
  | some l => if l == 0 then false else decide (l ≤ (n : Int))

/-- Inner `for obs in results` loop of `get_observation_ids` (source lines
200-203): append each id, returning early (second component `true`) as soon
as the limit is reached. -/
def innerFor (limit : Option Int) : List Nat → List Nat → List Nat × Bool
  | [], ids => (ids, false)
  | x :: rest, ids =>
      let ids' := ids ++ [x]
      if limitReached limit ids'.length then (ids', true)
      else innerFor limit rest ids'

/-- Outer `while True` pagination loop of `get_observation_ids` (source lines
185-210): process the current page, stop on early return, on an empty result
page, or when the limit has been reached. -/
def pageLoop (limit : Option Int) : List (List Nat) → List Nat → List Nat
  | [], ids => ids
  | results :: rest, ids =>
      let r := innerFor limit results ids
      if r.2 then r.1
      else if results.isEmpty || limitReached limit r.1.length then r.1
      else pageLoop limit rest r.1

/-- `get_observation_ids(username, limit)` (source lines 180-210), as a
function of the sequence of successfully fetched-and-decoded pages. -/
def get_observation_ids (pages : List (List Nat)) (limit : Option Int) : List Nat :=
  pageLoop limit pages []

/-- The ids the API makes available: the concatenation of the result pages up
to (excluding) the first empty page, since an empty page terminates
pagination. -/
def availableIds : List (List Nat) → List Nat
  | [] => []
  | p :: rest => if p.isEmpty then [] else p ++ availableIds rest

/-! ## Main loop CSV rows (source lines 498-582)

For claim C2 only the per-observation data flow matters: for each photo of an
observation the loop scrapes `(filename, original_link)`; the download
attempts do not affect the CSV row.  A photo's scrape result is therefore a
record of its page URL and the scrape outputs. -/

/-- One photo of an observation as the main loop sees it: its constructed page
URL (source line 242) together with the `scrape_photo_page` outputs
(source line 533). -/
structure PhotoScrape where
  photo_page_url : String
  filename : String
  original_link : Option String

/-- The photos the main loop keeps for the CSV row: those whose scraped
filename is non-empty (source line 535, Python truthiness of
`scraped_filename`). -/
def keptPhotos (photos : List PhotoScrape) : List PhotoScrape :=
  photos.filter (fun p => !p.filename.isEmpty)

/-- One written CSV row (source lines 564-573): the url fields exist only when
`--add-photo-urls` is set.  The list fields hold the values that the source
joins with ";" into one CSV cell. -/
structure OutputRow where
  observation_id : String
  photo_filenames : List String
  photo_urls : Option (List String)
  original_photo_urls : Option (List String)

/-- The `for photo_data in photo_details_list` loop (source lines 529-558)
restricted to its CSV-affecting effects: accumulate the scraped filename and,
when `--add-photo-urls` is set, the photo page URL and the original link
(empty string when the link is absent, source line 539). -/
def observation_photo_loop (addPhotoUrls : Bool) :
    List PhotoScrape → List String → List String → List String →
    List String × List String × List String
  | [], fns, purls, olinks => (fns, purls, olinks)
  | p :: rest, fns, purls, olinks =>
      if !p.filename.isEmpty then
        observation_photo_loop addPhotoUrls rest (fns ++ [p.filename])
          (if addPhotoUrls then purls ++ [p.photo_page_url] else purls)
          (if addPhotoUrls then olinks ++ [p.original_link.getD ""] else olinks)
      else observation_photo_loop addPhotoUrls rest fns purls olinks

/-- Row construction for one observation (source lines 560-573): no filenames
means no row (`continue`), otherwise one row whose url fields are present
exactly when `--add-photo-urls` is set. -/
def process_observation (addPhotoUrls : Bool) (obsId : String)
    (photos : List PhotoScrape) : Option OutputRow :=
  let acc := observation_photo_loop addPhotoUrls photos [] [] []
  if acc.1.isEmpty then none
  else some ⟨obsId, acc.1,
    if addPhotoUrls then some acc.2.1 else none,
    if addPhotoUrls then some acc.2.2 else none⟩

/-- The `for i, current_obs_id_int in enumerate(obs_ids_list)` loop (source
lines 516-574) restricted to the rows it writes, in order. -/
def main_rows (addPhotoUrls : Bool) : List (String × List PhotoScrape) → List OutputRow
  | [] => []
  | x :: rest =>
      match process_observation addPhotoUrls x.1 x.2 with
      | none => main_rows addPhotoUrls rest
      | some row => row :: main_rows addPhotoUrls rest

/-! ## `download_image` extension policy (source lines 378-437)

Claim C3 is about how the declared content type determines the output file's
extension, so the embedding captures exactly that decision: the function below
returns `some ext` when `download_image` proceeds to write a file with
extension `ext`, and `none` when it rejects the response as not-an-image
(source line 433 `return False`, reached before any file is opened). -/

/-- Source constant `MIME_TYPE_MAP` (source lines 378-386). -/
def MIME_TYPE_MAP : List (String × String) :=
  [("image/jpeg", ".jpg"), ("image/png", ".png"), ("image/gif", ".gif"),
   ("image/webp", ".webp"), ("image/tiff", ".tif"), ("image/bmp", ".bmp"),
   ("image/svg+xml", ".svg")]

/-- Normalisation of the declared content type (source line 409):
`r.headers.get('content-type', '').split(';')[0].strip().lower()`. -/
def normalize_content_type (raw : String) : String :=
  strToLower (strTrim (String.mk (raw.toList.takeWhile (fun c => c != ';'))))

/-- Sanity check on the derived extension part (source line 417):
`derived_ext_part and len(derived_ext_part) <= 4 and derived_ext_part.isalnum()
and derived_ext_part not in ['html', 'xml', 'plain']`. -/
def subtypeOk (d : String) : Bool :=
  !d.isEmpty && decide (d.length ≤ 4) && d.toList.all Char.isAlphanum
    && !(["html", "xml", "plain"].contains d)

/-- Fallback extension (source lines 421 and 424):
`orig_ext if orig_ext else '.jpg'` with `orig_ext` from
`os.path.splitext(fname)`. -/
def origExtOrJpg (fname : String) : String :=
  let orig_ext := (splitext fname).2
  if orig_ext.isEmpty then ".jpg" else orig_ext

/-- Model of Python `s.split(c)[-1]`: the segment after the last occurrence of
`c` (the whole string when `c` is absent). -/
def lastSegmentAfter (c : Char) (s : String) : String :=
  String.mk ((s.toList.reverse.takeWhile (fun x => x != c)).reverse)

/-- Extension decision of `download_image` (source lines 409-434): table
lookup first; else, for an `image/*` type, the segment after the last `/`
when it passes the sanity check, the fallback extension otherwise; else the
fallback extension for `application/octet-stream` or an empty type; else
reject (`none`: `download_image` returns `False` and writes no file). -/
def download_image_ext (rawContentType fname : String) : Option String :=
  let content_type := normalize_content_type rawContentType
  match MIME_TYPE_MAP.lookup content_type with
  | some e => some e
  | none =>
      if strStartsWith content_type "image/" then
        let derived_ext_part := lastSegmentAfter '/' content_type
        if subtypeOk derived_ext_part then some ("." ++ derived_ext_part)
        else some (origExtOrJpg fname)
      else if content_type == "application/octet-stream" || content_type.isEmpty then
        some (origExtOrJpg fname)
      else none

/-! ## `get_actual_image_url` (source lines 315-374)

The fetched original-size page is modelled as its list of `img` elements, in
document order; `none` for the whole page models a network failure of the
authenticated GET (source lines 321-327). -/

/-- An `img` element of the original-size page: its `id` and `src`
attributes, each possibly absent. -/
structure ImgTag where
  id : Option String
  src : Option String
deriving DecidableEq

/-- Model of `soup.find('img', id=idval)` (source line 334): the first `img`
whose id attribute equals `idval`. -/
def find_img_by_id (idval : String) : List ImgTag → Option ImgTag
  | [] => none
  | t :: rest => if t.id == some idval then some t else find_img_by_id idval rest

/-- The `for img_candidate in soup.find_all('img')` loop (source lines
343-348): first `img` whose `src` (defaulted to `""`) contains `"original"`
case-insensitively; returns that raw `src`. -/
def find_original_src : List ImgTag → Option String
  | [] => none
  | t :: rest =>
      let src_candidate := t.src.getD ""
      if strContains (strToLower src_candidate) HTML_A_TAG_ORIGINAL_TEXT then
        some src_candidate
      else find_original_src rest

/-- Model of `re.search(r'/photos/(\d+)', s)` restricted to its group 1: the
maximal digit run following the leftmost occurrence of `/photos/` that is
followed by at least one digit. -/
def searchPhotosId : List Char → Option (List Char)
  | [] => none
  | c :: rest =>
      if startsWithChars (c :: rest) API_PHOTOS_PATH_SEGMENT.toList then
        let ds := ((c :: rest).drop API_PHOTOS_PATH_SEGMENT.toList.length).takeWhile
          Char.isDigit
        if ds.isEmpty then searchPhotosId rest else some ds
      else searchPhotosId rest

/-- Strategies 2 and 3 of `get_actual_image_url` (source lines 341-371),
reached when the `img#photo` strategy produced nothing: any `img` with
`"original"` in its `src`, else the guessed S3 URL when `/photos/<digits>`
occurs in the link string, else `None`. -/
def image_url_fallback_search (imgs : List ImgTag)
    (original_link_from_scrape : String) : Option String :=
  match find_original_src imgs with
  | some src_candidate => some (urljoin original_link_from_scrape src_candidate)
  | none =>
      if strContains original_link_from_scrape API_PHOTOS_PATH_SEGMENT then
        match searchPhotosId original_link_from_scrape.toList with
        | some ds => some (S3_PHOTO_URL_BASE ++ String.mk ds ++ "/original"
            ++ S3_ATTEMPT_EXTENSIONS.headD "")
        | none => none
      else none

/-- `get_actual_image_url(original_link_from_scrape)` (source lines 315-374):
empty link or failed GET give `None`; otherwise the `img#photo` source when
present and non-empty, else the fallback search. -/
def get_actual_image_url (fetched : Option (List ImgTag))
    (original_link_from_scrape : String) : Option String :=
  if original_link_from_scrape.isEmpty then none
  else
    match fetched with
    | none => none
    | some imgs =>
        match find_img_by_id HTML_IMG_ID_SELECTOR imgs with
        | some img_tag =>
            if !(img_tag.src.getD "").isEmpty then
              some (urljoin original_link_from_scrape (img_tag.src.getD ""))
            else image_url_fallback_search imgs original_link_from_scrape
        | none => image_url_fallback_search imgs original_link_from_scrape

/-! ## `direct_download_by_photo_id` (source lines 479-496)

`download_image` is passed in as an oracle from (url, filename, observation
id) to success, so the loop's control flow can be studied for every possible
backend behaviour.  Alongside the Python return value the embedding also
records the list of candidate URLs actually handed to `download_image`, in
order, so that "stops immediately at first success" is a provable statement
about the trace. -/

/-- The `for s3_ext in S3_ATTEMPT_EXTENSIONS` loop (source lines 483-496):
build the candidate URL, attempt the download, return `true` at the first
success, `false` after all candidates failed.  Second component: the
attempted URLs in order. -/
def direct_download_go (download_image_oracle : String → String → String → Bool)
    (photo_id filename_val obs_id_str_val : String) :
    List String → Bool × List String
  | [] => (false, [])
  | s3_ext :: rest =>
      let direct_s3_url := S3_PHOTO_URL_BASE ++ photo_id ++ "/original" ++ s3_ext
      if download_image_oracle direct_s3_url filename_val obs_id_str_val then
        (true, [direct_s3_url])
      else
        let r := direct_download_go download_image_oracle photo_id filename_val
          obs_id_str_val rest
        (r.1, direct_s3_url :: r.2)

/-- `direct_download_by_photo_id(photo_id, filename, obs_id)` (source lines
479-496), iterating `S3_ATTEMPT_EXTENSIONS`. -/
def direct_download_by_photo_id
    (download_image_oracle : String → String → String → Bool)
    (photo_id filename_val obs_id_str_val : String) : Bool × List String :=
  direct_download_go download_image_oracle photo_id filename_val obs_id_str_val
    S3_ATTEMPT_EXTENSIONS

/-! ## `scrape_photo_page`: original-size link extraction (source lines 282-299)

Only the anchor-scanning part of `scrape_photo_page` matters for claim C6.
An anchor is its visible text (as collected by `get_text(strip=True)`, i.e.
trimmed) and its `href` attribute, possibly absent. -/

/-- An anchor element of the photo page: raw visible text and optional
`href`. -/
structure ATag where
  text : String
  href : Option String
deriving DecidableEq

/-- The `for link_element in links` loop (source lines 286-299): first anchor
whose trimmed, lowercased text equals `"original"` and whose href contains
`"size=original"`; its href resolved against the page URL. -/
def find_original_size_url (page_url : String) : List ATag → Option String
  | [] => none
  | a :: rest =>
      let link_text := strToLower (strTrim a.text)
      let href := a.href.getD ""
      if (link_text == HTML_A_TAG_ORIGINAL_TEXT)
          && strContains href HTML_A_TAG_SIZE_ORIGINAL_SUBSTRING then
        some (urljoin page_url href)
      else find_original_size_url page_url rest

/-! ## Module-level argument validation (source lines 72-92)

The Python module executes top to bottom, so a name used at line 82 must have
been bound earlier in the file.  `log_message` (and the log-level constants)
are defined at lines 108-138, *after* the validation block, so the validation
error paths resolve `log_message` against only the names bound by lines
1-80. -/

/-- The module names bound before the validation block at source line 81: the
imports (lines 8-16) and `parser`/`args` (lines 19-70).  `log_message` is not
among them — it is defined at line 122. -/
def names_defined_before_validation : List String :=
  ["argparse", "requests", "BeautifulSoup", "csv", "time", "sys", "os", "re",
   "urlparse", "urljoin", "parser", "args"]

/-- Outcome of executing the module prologue (source lines 72-92). -/
inductive StartupOutcome where
  | helpThenExit0
  | uncaughtNameError (missing : String)
  | exitCode (c : Nat)
  | proceed (output_filename : String)
deriving DecidableEq

/-- Python truthiness of an optional string (`None` and `""` are falsy). -/
def pyTruthyStr : Option String → Bool
  | none => false
  | some s => !s.isEmpty

/-- The module prologue (source lines 72-92): print help and exit 0 for a
bare invocation; otherwise check `--username` and the `.csv` suffix of
`--output`, in source order.  Each failing check calls `log_message`, which
raises `NameError` when that name is not yet bound at this point of the
module. -/
def startup_validation (argvLen : Nat) (username output : Option String) :
    StartupOutcome :=
  if argvLen == 1 then StartupOutcome.helpThenExit0
  else if !pyTruthyStr username then
    if names_defined_before_validation.contains "log_message" then
      StartupOutcome.exitCode 1
    else StartupOutcome.uncaughtNameError "log_message"
  else if pyTruthyStr output then
    if !(strEndsWith (strToLower (output.getD "")) ".csv") then
      if names_defined_before_validation.contains "log_message" then
        StartupOutcome.exitCode 1
      else StartupOutcome.uncaughtNameError "log_message"
    else StartupOutcome.proceed (output.getD "")
  else StartupOutcome.proceed "inaturalist_filenames.csv"

/-! ## JSON decode failure handling (source lines 185-225)

The source imports (lines 8-16) never import `json`, yet the second `except`
clause of both `get_observation_ids` and `get_photo_ids` names
`json.JSONDecodeError`.  Python evaluates an `except` clause's class
expression only when the earlier clauses did not match, so whether a decode
failure is survivable depends on whether the installed `requests` makes its
JSON decode error a subclass of `RequestException` (true for requests ≥
2.27): if it is, the first clause catches it; if not, evaluating the second
clause raises `NameError`, which escapes the function.  That library choice
is the explicit boolean parameter below. -/

/-- The modules imported by the source (lines 8-16).  `json` is absent. -/
def module_imports : List String :=
  ["argparse", "requests", "bs4", "csv", "time", "sys", "os", "re", "urllib.parse"]

/-- One page fetch outcome as seen inside the `try` block. -/
inductive PageResp where
  | ok (ids : List Nat)
  | requestError
  | decodeError
deriving DecidableEq

/-- Result of a function whose body may let an exception escape. -/
inductive FetchResult (α : Type) where
  | ok (a : α)
  | uncaught (excName : String)
deriving DecidableEq

/-- Pagination loop of `get_observation_ids` with the exception channel
explicit (source lines 185-210): a `RequestException` returns the ids so far;
a JSON decode failure is caught by the first clause only when the library
makes it a `RequestException`, and otherwise reaches the
`except json.JSONDecodeError` clause, whose evaluation raises `NameError`
because `json` is not imported. -/
def pageLoopExc (jsonDecodeIsRequestExc : Bool) (limit : Option Int) :
    List PageResp → List Nat → FetchResult (List Nat)
  | [], ids => FetchResult.ok ids
  | resp :: rest, ids =>
      match resp with
      | PageResp.requestError => FetchResult.ok ids
      | PageResp.decodeError =>
          if jsonDecodeIsRequestExc then FetchResult.ok ids
          else if module_imports.contains "json" then FetchResult.ok ids
          else FetchResult.uncaught "NameError"
      | PageResp.ok results =>
          let r := innerFor limit results ids
          if r.2 then FetchResult.ok r.1
          else if results.isEmpty || limitReached limit r.1.length then
            FetchResult.ok r.1
          else pageLoopExc jsonDecodeIsRequestExc limit rest r.1

/-- `get_observation_ids` with the exception channel explicit. -/
def get_observation_ids_exc (jsonDecodeIsRequestExc : Bool)
    (pages : List PageResp) (limit : Option Int) : FetchResult (List Nat) :=
  pageLoopExc jsonDecodeIsRequestExc limit pages []

/-- Outcome of the single detail fetch of `get_photo_ids`. -/
inductive DetailResp where
  | ok (photoIds : List Nat)
  | requestError
  | decodeError
deriving DecidableEq

/-- `get_photo_ids(obs_id)` (source lines 213-245) restricted to its
error-handling skeleton: `RequestException` gives `[]`; a decode failure is
survivable only when the library routes it into the first clause, else the
`except json.JSONDecodeError` clause raises `NameError`. -/
def get_photo_ids_exc (jsonDecodeIsRequestExc : Bool) (resp : DetailResp) :
    FetchResult (List Nat) :=
  match resp with
  | DetailResp.ok ids => FetchResult.ok ids
  | DetailResp.requestError => FetchResult.ok []
  | DetailResp.decodeError =>
      if jsonDecodeIsRequestExc then FetchResult.ok []
      else if module_imports.contains "json" then FetchResult.ok []
      else FetchResult.uncaught "NameError"

/-! ## `rate_limited_request` (source lines 158-177)

The wall clock is idealised as exact rational time: `time.time()` readings
are monotone rationals, and `time.sleep(d)` suspends for at least `d`
seconds.  One call reads the clock (`now`), computes the delay, sleeps, then
reads the clock again and stores it in the global `last_request_time`
*before* issuing the HTTP request; `extra ≥ 0` is the overshoot of the sleep
plus the time between the sleep and the second clock read. -/

/-- Delay computation of source line 163: `max(0, 1.0 - (now - last))`. -/
def rateDelay (last now : ℚ) : ℚ := max 0 (1 - (now - last))

/-- The value stored into `last_request_time` at source line 167: the clock
reading taken after sleeping `rateDelay`, overshooting by `extra`. -/
def recordedTime (last now extra : ℚ) : ℚ := now + rateDelay last now + extra

/-- One permitted call of the rate gate: some entry clock reading `now` and
sleep overshoot `extra ≥ 0` produced the newly recorded timestamp. -/
def AcquireStep (last last' : ℚ) : Prop :=
  ∃ now extra, 0 ≤ extra ∧ last' = recordedTime last now extra

/-- Events of one `rate_limited_request` call, in execution order. -/
inductive RLEvent where
  | gotTime (t : ℚ)
  | slept (d : ℚ)
  | setLast (t : ℚ)
  | request (ok : Bool)
deriving DecidableEq

/-- `rate_limited_request` (source lines 158-177): returns the new
`last_request_time` global together with the event trace.  The request
outcome `ok` is the parameter of the final event: a raising request aborts
the caller *after* the timestamp update, so the state component does not
depend on `ok`. -/
def rate_limited_request (last now extra : ℚ) (ok : Bool) : ℚ × List RLEvent :=
  let delay := rateDelay last now
  let new_last := now + delay + extra
  (new_last,
    [RLEvent.gotTime now]
      ++ (if 0 < delay then [RLEvent.slept delay] else [])
      ++ [RLEvent.setLast new_last, RLEvent.request ok])

/-! ## Theorems -/

/-- With no limit the inner loop appends the whole page and never
early-returns. -/
theorem innerFor_none_eq (results ids : List Nat) :
    innerFor none results ids = (ids ++ results, false) := by
  induction results generalizing ids with
  | nil => simp [innerFor]
  | cons x rest ih =>
      simp [innerFor, limitReached, ih]

/-- With no limit the pagination loop returns everything available. -/
theorem pageLoop_none_eq (pages : List (List Nat)) (ids : List Nat) :
    pageLoop none pages ids = ids ++ availableIds pages := by
  induction pages generalizing ids with
  | nil => simp [pageLoop, availableIds]
  | cons p rest ih =>
      by_cases hp : p.isEmpty
      · have hpnil : p = [] := List.isEmpty_iff.mp hp
        simp [pageLoop, innerFor_none_eq, limitReached, availableIds, hpnil]
      · simp [pageLoop, innerFor_none_eq, limitReached, availableIds, hp, ih]

/-- For a nonzero positive limit, `limitReached` is the plain comparison with
`l.toNat`. -/
theorem limitReached_pos (l : Int) (hl : 1 ≤ l) (n : Nat) :
    limitReached (some l) n = decide (l.toNat ≤ n) := by
  have h0 : (l == 0) = false := by
    simp only [beq_eq_false_iff_ne, ne_eq]
    omega
  simp only [limitReached, h0, Bool.false_eq_true, if_false]
  exact decide_eq_decide.mpr Int.toNat_le.symm

/-- With a positive limit the inner loop appends until the accumulated length
reaches the limit, early-returning exactly when the page pushes it there. -/
theorem innerFor_some_eq (l : Int) (hl : 1 ≤ l) (results ids : List Nat)
    (h : ids.length < l.toNat) :
    innerFor (some l) results ids =
      if ids.length + results.length < l.toNat then (ids ++ results, false)
      else (ids ++ results.take (l.toNat - ids.length), true) := by
  induction results generalizing ids with
  | nil =>
      rw [if_pos (by simp; omega)]
      simp [innerFor]
  | cons x rest ih =>
      simp only [innerFor, limitReached_pos l hl]
      by_cases hn : l.toNat ≤ (ids ++ [x]).length
      · have hlen : (ids ++ [x]).length = ids.length + 1 := by simp
        rw [if_pos (by simpa [hlen] using hn)]
        have h1 : l.toNat - ids.length = 1 := by rw [hlen] at hn; omega
        rw [if_neg (by simp; omega)]
        simp [h1]
      · have hlen : (ids ++ [x]).length = ids.length + 1 := by simp
        have h' : (ids ++ [x]).length < l.toNat := by omega
        rw [if_neg (by simpa [hlen] using hn), ih (ids ++ [x]) h']
        rw [hlen] at hn h' ⊢
        by_cases hc : ids.length + (x :: rest).length < l.toNat
        · rw [if_pos (by simp at hc ⊢; omega), if_pos hc]
          simp
        · rw [if_neg (by simp at hc ⊢; omega), if_neg hc]
          have h2 : l.toNat - ids.length = (l.toNat - (ids.length + 1)) + 1 := by omega
          simp [h2, List.take_succ_cons]

/-- With a positive limit the pagination loop returns the available ids
truncated to the limit. -/
theorem pageLoop_some_eq (l : Int) (hl : 1 ≤ l) (pages : List (List Nat))
    (ids : List Nat) (h : ids.length < l.toNat) :
    pageLoop (some l) pages ids = ids ++ (availableIds pages).take (l.toNat - ids.length) := by
  induction pages generalizing ids with
  | nil => simp [pageLoop, availableIds]
  | cons p rest ih =>
      simp only [pageLoop, innerFor_some_eq l hl p ids h]
      by_cases hc : ids.length + p.length < l.toNat
      · rw [if_pos hc]
        simp only
        rw [limitReached_pos l hl]
        have hnr : ¬ l.toNat ≤ (ids ++ p).length := by simp; omega
        by_cases hp : p.isEmpty
        · have hpnil : p = [] := List.isEmpty_iff.mp hp
          simp [hpnil, availableIds]
        · have hav : availableIds (p :: rest) = p ++ availableIds rest := by
            simp [availableIds, hp]
          have hlen : (ids ++ p).length < l.toNat := by simp; omega
          simp only [hp, Bool.false_or, decide_eq_true_eq]
          rw [if_neg hnr, ih (ids ++ p) hlen, hav,
            List.take_append_eq_append_take]
          have hpl : p.length ≤ l.toNat - ids.length := by omega
          rw [List.take_of_length_le hpl]
          have : l.toNat - ids.length - p.length = l.toNat - (ids ++ p).length := by
            simp; omega
          simp [this]
      · rw [if_neg hc]
        have hpne : ¬ p.isEmpty := by
          cases hp : p.isEmpty
          · simp
          · exfalso
            have : p = [] := List.isEmpty_iff.mp hp
            subst this
            simp at hc
            omega
        have hav : availableIds (p :: rest) = p ++ availableIds rest := by
          simp [availableIds, hpne]
        simp only
        rw [hav, List.take_append_eq_append_take]
        have h2 : l.toNat - ids.length - p.length = 0 := by omega
        simp [h2]

/-- C1 (amended): for any sequence of successfully fetched pages,
`get_observation_ids` returns all available ids when no limit is given, and
exactly `min(total_available, limit)` ids — the prefix of the available ids of
length `limit` — when a positive limit is given.  (Order and absence of new
duplicates follow because the result is literally a prefix of the pages'
concatenation up to the first empty page.) -/
theorem c1_get_observation_ids_amended (pages : List (List Nat)) (l : Int)
    (hl : 1 ≤ l) :
    get_observation_ids pages none = availableIds pages ∧
    get_observation_ids pages (some l) = (availableIds pages).take l.toNat ∧
    (get_observation_ids pages (some l)).length
      = min (availableIds pages).length l.toNat := by
  have h1 : get_observation_ids pages none = availableIds pages := by
    simpa [get_observation_ids] using pageLoop_none_eq pages []
  have h2 : get_observation_ids pages (some l) = (availableIds pages).take l.toNat := by
    have := pageLoop_some_eq l hl pages [] (by simp; omega)
    simpa [get_observation_ids] using this
  refine ⟨h1, h2, ?_⟩
  rw [h2, List.length_take, Nat.min_comm]

/-- C1 witness: a concrete run with limit 2 over the pages [[1,2],[3]]. -/
theorem c1_get_observation_ids_witness :
    (1 : Int) ≤ 2 ∧
    get_observation_ids [[1, 2], [3]] (some 2) = (availableIds [[1, 2], [3]]).take (2 : Int).toNat :=
  ⟨by decide, (c1_get_observation_ids_amended [[1, 2], [3]] 2 (by decide)).2.1⟩

/-- C1 counterexample: the claim as stated fails for the given limit `0`,
because Python's `if limit and ...` treats `0` as "no limit": for one page
`[7]` the code returns `[7]`, exactly one id, not `min(1, 0) = 0` ids. -/
theorem c1_limit_zero_counterexample :
    get_observation_ids [[7]] (some 0) = [7] ∧
    (get_observation_ids [[7]] (some 0)).length
      ≠ min (availableIds [[7]]).length (0 : Int).toNat := by
  constructor
  · decide
  · decide

/-- The per-observation photo loop appends, to each accumulator, the
corresponding projection of the kept photos (those with a non-empty
filename) — so all three accumulated lists are index-aligned projections of
one and the same photo list. -/
theorem observation_photo_loop_eq (a : Bool) (photos : List PhotoScrape)
    (fns purls olinks : List String) :
    observation_photo_loop a photos fns purls olinks =
      (fns ++ (keptPhotos photos).map (fun p => p.filename),
       if a then purls ++ (keptPhotos photos).map (fun p => p.photo_page_url) else purls,
       if a then olinks ++ (keptPhotos photos).map (fun p => p.original_link.getD "") else olinks) := by
  induction photos generalizing fns purls olinks with
  | nil => cases a <;> simp [observation_photo_loop, keptPhotos]
  | cons p rest ih =>
      by_cases hp : p.filename.isEmpty
      · cases a <;>
          simp [observation_photo_loop, keptPhotos, hp, List.filter_cons, ih]
      · cases a <;>
          simp [observation_photo_loop, keptPhotos, hp, List.filter_cons, ih]

/-- C2: the CSV contains exactly one row per observation with at least one
successfully scraped filename (an observation with none is omitted, not
written empty), and each row's filename, photo-page-URL and original-link
lists are the projections of one shared list of kept photos — hence
index-aligned: position `i` of each list comes from the same photo.  The url
lists are present exactly when `--add-photo-urls` is set. -/
theorem c2_output_rows_aligned (addPhotoUrls : Bool)
    (obs : List (String × List PhotoScrape)) :
    main_rows addPhotoUrls obs =
      (obs.filter (fun x => !(keptPhotos x.2).isEmpty)).map (fun x =>
        ⟨x.1,
         (keptPhotos x.2).map (fun p => p.filename),
         if addPhotoUrls then some ((keptPhotos x.2).map (fun p => p.photo_page_url)) else none,
         if addPhotoUrls then some ((keptPhotos x.2).map (fun p => p.original_link.getD "")) else none⟩) := by
  induction obs with
  | nil => simp [main_rows]
  | cons x rest ih =>
      by_cases hk : (keptPhotos x.2).isEmpty
      · have hnil : keptPhotos x.2 = [] := List.isEmpty_iff.mp hk
        simp [main_rows, process_observation, observation_photo_loop_eq,
          hnil, List.filter_cons, ih]
      · have hne : ¬ ((keptPhotos x.2).map (fun p => p.filename)).isEmpty := by
          cases h : keptPhotos x.2
          · exact absurd (List.isEmpty_iff.mpr h) hk
          · simp [h]
        cases addPhotoUrls <;>
          simp [main_rows, process_observation, observation_photo_loop_eq,
            List.filter_cons, hk, hne, ih]

/-- C3 (amended): full case analysis of the `download_image` extension
policy.  The only change to the claim is that the derived subtype is the
segment after the *last* `/` of the content type (`split('/')[-1]`), not the
whole remainder after `image/`. -/
theorem c3_download_image_extension_amended :
    (∀ ct fn e, MIME_TYPE_MAP.lookup (normalize_content_type ct) = some e →
      download_image_ext ct fn = some e) ∧
    (∀ fn, download_image_ext "image/jpeg" fn = some ".jpg") ∧
    (∀ ct fn, MIME_TYPE_MAP.lookup (normalize_content_type ct) = none →
      strStartsWith (normalize_content_type ct) "image/" = true →
      subtypeOk (lastSegmentAfter '/' (normalize_content_type ct)) = true →
      download_image_ext ct fn
        = some ("." ++ lastSegmentAfter '/' (normalize_content_type ct))) ∧
    (∀ ct fn, MIME_TYPE_MAP.lookup (normalize_content_type ct) = none →
      strStartsWith (normalize_content_type ct) "image/" = true →
      subtypeOk (lastSegmentAfter '/' (normalize_content_type ct)) = false →
      download_image_ext ct fn = some (origExtOrJpg fn)) ∧
    (∀ ct fn, MIME_TYPE_MAP.lookup (normalize_content_type ct) = none →
      strStartsWith (normalize_content_type ct) "image/" = false →
      (normalize_content_type ct = "application/octet-stream" ∨
        (normalize_content_type ct).isEmpty = true) →
      download_image_ext ct fn = some (origExtOrJpg fn)) ∧
    (∀ ct fn, MIME_TYPE_MAP.lookup (normalize_content_type ct) = none →
      strStartsWith (normalize_content_type ct) "image/" = false →
      normalize_content_type ct ≠ "application/octet-stream" →
      (normalize_content_type ct).isEmpty = false →
      download_image_ext ct fn = none) := by
  refine ⟨?_, ?_, ?_, ?_, ?_, ?_⟩
  · intro ct fn e he
    simp [download_image_ext, he]
  · intro fn
    have h : MIME_TYPE_MAP.lookup (normalize_content_type "image/jpeg")
        = some ".jpg" := by decide
    simp [download_image_ext, h]
  · intro ct fn hlk hst hok
    simp [download_image_ext, hlk, hst, hok]
  · intro ct fn hlk hst hok
    simp [download_image_ext, hlk, hst, hok]
  · intro ct fn hlk hst hoc
    have hcond : (normalize_content_type ct == "application/octet-stream"
        || (normalize_content_type ct).isEmpty) = true := by
      rcases hoc with h | h
      · simp [h]
      · simp [h]
    simp [download_image_ext, hlk, hst, hcond]
  · intro ct fn hlk hst hne hemp
    have hb : (normalize_content_type ct == "application/octet-stream") = false := by
      simpa [beq_eq_false_iff_ne] using hne
    simp [download_image_ext, hlk, hst, hb, hemp]

/-- C3 witness: a short alphanumeric `image/*` subtype yields the derived
extension, and a non-image, non-stream type is rejected with no file
written. -/
theorem c3_download_image_extension_witness :
    download_image_ext "image/heic" "a.png" = some ".heic" ∧
    download_image_ext "text/html" "a.png" = none := by
  constructor
  · exact c3_download_image_extension_amended.2.2.1 "image/heic" "a.png"
      (by decide) (by decide) (by decide)
  · exact c3_download_image_extension_amended.2.2.2.2.2 "text/html" "a.png"
      (by decide) (by decide) (by decide) (by decide)

/-- C3 counterexample: for the declared content type `image/ab/cd` the claim
reads the subtype as `ab/cd`, which fails the alphanumeric check, so the
claim predicts the fallback to the original filename's extension `.png`; the
code instead derives `cd` from `split('/')[-1]` and writes extension `.cd`. -/
theorem c3_subtype_slash_counterexample :
    download_image_ext "image/ab/cd" "x.png" = some ".cd" ∧
    MIME_TYPE_MAP.lookup (normalize_content_type "image/ab/cd") = none ∧
    subtypeOk "ab/cd" = false ∧
    origExtOrJpg "x.png" = ".png" ∧
    (".cd" : String) ≠ ".png" := by
  refine ⟨by decide, by decide, by decide, by decide, by decide⟩

/-- The `soup.find('img', id=...)` model agrees with `List.find?` over the
id-matching predicate. -/
theorem find_img_by_id_eq (s : String) (l : List ImgTag) :
    find_img_by_id s l = l.find? (fun t => t.id == some s) := by
  induction l with
  | nil => simp [find_img_by_id]
  | cons t rest ih =>
      cases h : (t.id == some s) with
      | true => simp [find_img_by_id, h, List.find?_cons_of_pos, ih]
      | false =>
          rw [List.find?_cons_of_neg _ (by simp [h])]
          simp [find_img_by_id, h, ih]

/-- The `img src contains "original"` loop agrees with `List.find?` followed
by the `src` projection. -/
theorem find_original_src_eq (l : List ImgTag) :
    find_original_src l
      = (l.find? (fun t =>
          strContains (strToLower (t.src.getD "")) HTML_A_TAG_ORIGINAL_TEXT)).map
          (fun t => t.src.getD "") := by
  induction l with
  | nil => simp [find_original_src]
  | cons t rest ih =>
      cases h : strContains (strToLower (t.src.getD "")) HTML_A_TAG_ORIGINAL_TEXT with
      | true => simp [find_original_src, h, List.find?_cons_of_pos]
      | false =>
          rw [List.find?_cons_of_neg _ (by simp [h])]
          simp [find_original_src, h, ih]

/-- A successful `/photos/<digits>` regex search implies the `/photos/`
substring test that guards it in the source. -/
theorem searchPhotosId_some_contains (l ds : List Char)
    (h : searchPhotosId l = some ds) :
    charsContain API_PHOTOS_PATH_SEGMENT.toList l = true := by
  induction l with
  | nil => simp [searchPhotosId] at h
  | cons c rest ih =>
      have e : charsContain API_PHOTOS_PATH_SEGMENT.toList (c :: rest)
          = (startsWithChars (c :: rest) API_PHOTOS_PATH_SEGMENT.toList
              || charsContain API_PHOTOS_PATH_SEGMENT.toList rest) := rfl
      cases hs : startsWithChars (c :: rest) API_PHOTOS_PATH_SEGMENT.toList with
      | true => rw [e, hs, Bool.true_or]
      | false =>
          rw [searchPhotosId, hs] at h
          simp only [Bool.false_eq_true, if_false] at h
          rw [e, hs, ih h, Bool.or_true]

/-- C4 (amended): the three strategies of `get_actual_image_url` in order,
with `None` for a failed GET and when every strategy fails.  The only change
to the claim is in strategy (3): the code searches for `/photos/<digits>`
anywhere in the link string (`re.search` over the whole URL), not only in the
link's path. -/
theorem c4_get_actual_image_url_amended :
    (∀ link, get_actual_image_url none link = none) ∧
    (∀ (imgs : List ImgTag) (link : String) (t : ImgTag) (s : String),
      link.isEmpty = false →
      imgs.find? (fun t => t.id == some HTML_IMG_ID_SELECTOR) = some t →
      t.src = some s → s.isEmpty = false →
      get_actual_image_url (some imgs) link = some (urljoin link s)) ∧
    (∀ (imgs : List ImgTag) (link : String) (t : ImgTag),
      link.isEmpty = false →
      (∀ t0, imgs.find? (fun t => t.id == some HTML_IMG_ID_SELECTOR) = some t0 →
        (t0.src.getD "").isEmpty = true) →
      imgs.find? (fun t =>
        strContains (strToLower (t.src.getD "")) HTML_A_TAG_ORIGINAL_TEXT) = some t →
      get_actual_image_url (some imgs) link = some (urljoin link (t.src.getD ""))) ∧
    (∀ (imgs : List ImgTag) (link : String) (ds : List Char),
      link.isEmpty = false →
      (∀ t0, imgs.find? (fun t => t.id == some HTML_IMG_ID_SELECTOR) = some t0 →
        (t0.src.getD "").isEmpty = true) →
      imgs.find? (fun t =>
        strContains (strToLower (t.src.getD "")) HTML_A_TAG_ORIGINAL_TEXT) = none →
      searchPhotosId link.toList = some ds →
      get_actual_image_url (some imgs) link
        = some (S3_PHOTO_URL_BASE ++ String.mk ds ++ "/original" ++ ".jpeg")) ∧
    (∀ (imgs : List ImgTag) (link : String),
      link.isEmpty = false →
      (∀ t0, imgs.find? (fun t => t.id == some HTML_IMG_ID_SELECTOR) = some t0 →
        (t0.src.getD "").isEmpty = true) →
      imgs.find? (fun t =>
        strContains (strToLower (t.src.getD "")) HTML_A_TAG_ORIGINAL_TEXT) = none →
      searchPhotosId link.toList = none →
      get_actual_image_url (some imgs) link = none) := by
  refine ⟨?_, ?_, ?_, ?_, ?_⟩
  · intro link
    by_cases h : link.isEmpty <;> simp [get_actual_image_url, h]
  · intro imgs link t s hlink hfind hsrc hs
    have h1 : find_img_by_id HTML_IMG_ID_SELECTOR imgs = some t := by
      rw [find_img_by_id_eq]; exact hfind
    simp [get_actual_image_url, hlink, h1, hsrc, hs]
  · intro imgs link t hlink hfail hfind2
    have h2 : find_original_src imgs = some (t.src.getD "") := by
      rw [find_original_src_eq, hfind2]; rfl
    cases h1 : find_img_by_id HTML_IMG_ID_SELECTOR imgs with
    | none => simp [get_actual_image_url, hlink, h1, image_url_fallback_search, h2]
    | some t0 =>
        have h0 := hfail t0 (by rw [← find_img_by_id_eq]; exact h1)
        simp [get_actual_image_url, hlink, h1, h0, image_url_fallback_search, h2]
  · intro imgs link ds hlink hfail hfind2 hsearch
    have h2 : find_original_src imgs = none := by
      rw [find_original_src_eq, hfind2]; rfl
    have hcontain : strContains link API_PHOTOS_PATH_SEGMENT = true :=
      searchPhotosId_some_contains link.toList ds hsearch
    have hsearch' : searchPhotosId link.data = some ds := hsearch
    have hfb : image_url_fallback_search imgs link
        = some (S3_PHOTO_URL_BASE ++ String.mk ds ++ "/original" ++ ".jpeg") := by
      simp [image_url_fallback_search, h2, hcontain, hsearch', S3_ATTEMPT_EXTENSIONS]
    cases h1 : find_img_by_id HTML_IMG_ID_SELECTOR imgs with
    | none => simp [get_actual_image_url, hlink, h1, hfb]
    | some t0 =>
        have h0 := hfail t0 (by rw [← find_img_by_id_eq]; exact h1)
        simp [get_actual_image_url, hlink, h1, h0, hfb]
  · intro imgs link hlink hfail hfind2 hsearch
    have h2 : find_original_src imgs = none := by
      rw [find_original_src_eq, hfind2]; rfl
    have hsearch' : searchPhotosId link.data = none := hsearch
    have hfb : image_url_fallback_search imgs link = none := by
      simp [image_url_fallback_search, h2, hsearch']
    cases h1 : find_img_by_id HTML_IMG_ID_SELECTOR imgs with
    | none => simp [get_actual_image_url, hlink, h1, hfb]
    | some t0 =>
        have h0 := hfail t0 (by rw [← find_img_by_id_eq]; exact h1)
        simp [get_actual_image_url, hlink, h1, h0, hfb]

/-- C4 witness: a page whose `img#photo` has a non-empty `src` resolves
through strategy (1). -/
theorem c4_get_actual_image_url_witness :
    get_actual_image_url (some [⟨some "photo", some "https://static.example/p1.jpg"⟩])
        "https://www.inaturalist.org/photos/55?size=original"
      = some (urljoin "https://www.inaturalist.org/photos/55?size=original"
          "https://static.example/p1.jpg") :=
  c4_get_actual_image_url_amended.2.1
    [⟨some "photo", some "https://static.example/p1.jpg"⟩]
    "https://www.inaturalist.org/photos/55?size=original"
    ⟨some "photo", some "https://static.example/p1.jpg"⟩
    "https://static.example/p1.jpg"
    (by decide) (by decide) rfl (by decide)

/-- C4 counterexample: for a link whose *path* has no `/photos/<digits>` but
whose query string does, the claim (all three strategies fail on a page with
no `img` elements, so `None`) disagrees with the code, which `re.search`es
the whole URL string and returns the guessed S3 URL. -/
theorem c4_query_photos_counterexample :
    get_actual_image_url (some []) "https://www.inaturalist.org/p?u=/photos/99"
      = some "https://inaturalist-open-data.s3.amazonaws.com/photos/99/original.jpeg" ∧
    searchPhotosId (pathOf "https://www.inaturalist.org/p?u=/photos/99").toList = none := by
  constructor
  · decide
  · decide

/-- C5: the candidate extensions are tried in the fixed order `.jpeg, .jpg,
.png, .gif`; each candidate URL follows the `<storage-base>/<photo_id>/original<ext>`
template; the function returns true iff some candidate succeeds; the trace of
attempted URLs stops at the first success (so no later extension is tried);
it returns false iff all four attempts fail.  The final conjunct is the
spec's scenario: a backend accepting only `.gif` gives `true` with exactly one
successful (`.gif`) attempt after three failures. -/
theorem c5_direct_download_order
    (dl : String → String → String → Bool) (pid fn oid : String) :
    S3_ATTEMPT_EXTENSIONS = [".jpeg", ".jpg", ".png", ".gif"] ∧
    (direct_download_by_photo_id dl pid fn oid).1
      = (dl (S3_PHOTO_URL_BASE ++ pid ++ "/original" ++ ".jpeg") fn oid
         || dl (S3_PHOTO_URL_BASE ++ pid ++ "/original" ++ ".jpg") fn oid
         || dl (S3_PHOTO_URL_BASE ++ pid ++ "/original" ++ ".png") fn oid
         || dl (S3_PHOTO_URL_BASE ++ pid ++ "/original" ++ ".gif") fn oid) ∧
    (direct_download_by_photo_id dl pid fn oid).2
      = (if dl (S3_PHOTO_URL_BASE ++ pid ++ "/original" ++ ".jpeg") fn oid then
           [S3_PHOTO_URL_BASE ++ pid ++ "/original" ++ ".jpeg"]
         else if dl (S3_PHOTO_URL_BASE ++ pid ++ "/original" ++ ".jpg") fn oid then
           [S3_PHOTO_URL_BASE ++ pid ++ "/original" ++ ".jpeg",
            S3_PHOTO_URL_BASE ++ pid ++ "/original" ++ ".jpg"]
         else if dl (S3_PHOTO_URL_BASE ++ pid ++ "/original" ++ ".png") fn oid then
           [S3_PHOTO_URL_BASE ++ pid ++ "/original" ++ ".jpeg",
            S3_PHOTO_URL_BASE ++ pid ++ "/original" ++ ".jpg",
            S3_PHOTO_URL_BASE ++ pid ++ "/original" ++ ".png"]
         else
           [S3_PHOTO_URL_BASE ++ pid ++ "/original" ++ ".jpeg",
            S3_PHOTO_URL_BASE ++ pid ++ "/original" ++ ".jpg",
            S3_PHOTO_URL_BASE ++ pid ++ "/original" ++ ".png",
            S3_PHOTO_URL_BASE ++ pid ++ "/original" ++ ".gif"]) ∧
    ((direct_download_by_photo_id dl pid fn oid).1 = false ↔
      dl (S3_PHOTO_URL_BASE ++ pid ++ "/original" ++ ".jpeg") fn oid = false ∧
      dl (S3_PHOTO_URL_BASE ++ pid ++ "/original" ++ ".jpg") fn oid = false ∧
      dl (S3_PHOTO_URL_BASE ++ pid ++ "/original" ++ ".png") fn oid = false ∧
      dl (S3_PHOTO_URL_BASE ++ pid ++ "/original" ++ ".gif") fn oid = false) ∧
    direct_download_by_photo_id (fun url _fnv _oidv => strEndsWith url ".gif")
        "123" "IMG.jpg" "55"
      = (true, S3_ATTEMPT_EXTENSIONS.map
          (fun e => S3_PHOTO_URL_BASE ++ "123" ++ "/original" ++ e)) := by
  refine ⟨rfl, ?_, ?_, ?_, by decide⟩ <;>
  · simp only [direct_download_by_photo_id, S3_ATTEMPT_EXTENSIONS, direct_download_go]
    by_cases h1 : dl (S3_PHOTO_URL_BASE ++ pid ++ "/original" ++ ".jpeg") fn oid <;>
    by_cases h2 : dl (S3_PHOTO_URL_BASE ++ pid ++ "/original" ++ ".jpg") fn oid <;>
    by_cases h3 : dl (S3_PHOTO_URL_BASE ++ pid ++ "/original" ++ ".png") fn oid <;>
    by_cases h4 : dl (S3_PHOTO_URL_BASE ++ pid ++ "/original" ++ ".gif") fn oid <;>
    simp [h1, h2, h3, h4]

/-- C6: the original-size link returned by `scrape_photo_page` is the first
anchor whose trimmed lowercased text equals `"original"` and whose href
contains `"size=original"`, resolved against the page's own URL, and `none`
when no anchor matches; plus the spec's concrete instance with text
`"Original"` and href `"/photos/55?size=original"`. -/
theorem c6_original_link_extraction (page_url : String) (anchors : List ATag) :
    find_original_size_url page_url anchors
      = (anchors.find? (fun a =>
            (strToLower (strTrim a.text) == HTML_A_TAG_ORIGINAL_TEXT)
            && strContains (a.href.getD "") HTML_A_TAG_SIZE_ORIGINAL_SUBSTRING)).map
          (fun a => urljoin page_url (a.href.getD "")) ∧
    find_original_size_url "https://www.inaturalist.org/photos/55"
        [⟨"  Original ", some "/photos/55?size=original"⟩]
      = some "https://www.inaturalist.org/photos/55?size=original" := by
  constructor
  · induction anchors with
    | nil => simp [find_original_size_url]
    | cons a rest ih =>
        cases h : (strToLower (strTrim a.text) == HTML_A_TAG_ORIGINAL_TEXT)
            && strContains (a.href.getD "") HTML_A_TAG_SIZE_ORIGINAL_SUBSTRING with
        | true => simp [find_original_size_url, h, List.find?_cons_of_pos]
        | false =>
            rw [List.find?_cons_of_neg _ (by simp [h])]
            simp [find_original_size_url, h, ih]
  · decide

/-- C7: the validation error paths do terminate the run before any network
activity, but they do so by raising `NameError` — `log_message` is called at
source line 82/89 yet only defined at line 122 — so the user sees a stack
trace, not the intended actionable message; a valid invocation proceeds. -/
theorem c7_validation_name_error :
    startup_validation 3 none (some "out.csv")
      = StartupOutcome.uncaughtNameError "log_message" ∧
    startup_validation 5 (some "alice") (some "data.txt")
      = StartupOutcome.uncaughtNameError "log_message" ∧
    names_defined_before_validation.contains "log_message" = false ∧
    startup_validation 5 (some "alice") (some "out.csv")
      = StartupOutcome.proceed "out.csv" := by
  refine ⟨by decide, by decide, by decide, by decide⟩

/-- C8: because `json` is never imported, a JSON decode failure is survivable
only when the installed `requests` makes its decode error a subclass of
`RequestException` (first parameter `true`); otherwise the
`except json.JSONDecodeError` clause itself raises `NameError` and the
failure escapes the function instead of yielding the accumulated ids
(respectively the empty list). -/
theorem c8_json_decode_name_error :
    get_observation_ids_exc false [PageResp.ok [1, 2], PageResp.decodeError] none
      = FetchResult.uncaught "NameError" ∧
    get_observation_ids_exc true [PageResp.ok [1, 2], PageResp.decodeError] none
      = FetchResult.ok [1, 2] ∧
    get_photo_ids_exc false DetailResp.decodeError = FetchResult.uncaught "NameError" ∧
    get_photo_ids_exc true DetailResp.decodeError = FetchResult.ok [] ∧
    module_imports.contains "json" = false := by
  refine ⟨by decide, by decide, by decide, by decide, by decide⟩

/-- Any permitted rate-gate step records a timestamp at least one second
after the previous one: either the computed delay pushes the post-sleep clock
to `last + 1`, or no delay was needed because the clock already passed it. -/
theorem acquireStep_lower_bound (last last' : ℚ) (h : AcquireStep last last') :
    last + 1 ≤ last' := by
  obtain ⟨now, extra, hx, rfl⟩ := h
  unfold recordedTime rateDelay
  rcases le_total (1 - (now - last)) 0 with h1 | h1
  · rw [max_eq_left h1]; linarith
  · rw [max_eq_right h1]; linarith

/-- C9: consecutive recorded permitted times are at least the 1-second
minimum interval apart, and five consecutive acquisitions therefore span at
least 4 seconds of wall time between the first and the fifth recorded
timestamp. -/
theorem c9_rate_gate_min_interval :
    (∀ last last', AcquireStep last last' → last + 1 ≤ last') ∧
    (∀ t0 t1 t2 t3 t4 : ℚ, AcquireStep t0 t1 → AcquireStep t1 t2 →
      AcquireStep t2 t3 → AcquireStep t3 t4 → t0 + 4 ≤ t4) := by
  refine ⟨acquireStep_lower_bound, ?_⟩
  intro t0 t1 t2 t3 t4 h1 h2 h3 h4
  have g1 := acquireStep_lower_bound t0 t1 h1
  have g2 := acquireStep_lower_bound t1 t2 h2
  have g3 := acquireStep_lower_bound t2 t3 h3
  have g4 := acquireStep_lower_bound t3 t4 h4
  linarith

/-- C9 witness: the integer-second schedule 0,1,2,3,4 realises five
consecutive acquisitions and spans exactly the 4-second lower bound. -/
theorem c9_rate_gate_witness :
    AcquireStep 0 1 ∧ AcquireStep 1 2 ∧ AcquireStep 2 3 ∧ AcquireStep 3 4 ∧
    (0 : ℚ) + 4 ≤ 4 := by
  have s01 : AcquireStep 0 1 := ⟨1, 0, le_refl 0, by norm_num [recordedTime, rateDelay]⟩
  have s12 : AcquireStep 1 2 := ⟨2, 0, le_refl 0, by norm_num [recordedTime, rateDelay]⟩
  have s23 : AcquireStep 2 3 := ⟨3, 0, le_refl 0, by norm_num [recordedTime, rateDelay]⟩
  have s34 : AcquireStep 3 4 := ⟨4, 0, le_refl 0, by norm_num [recordedTime, rateDelay]⟩
  exact ⟨s01, s12, s23, s34, c9_rate_gate_min_interval.2 0 1 2 3 4 s01 s12 s23 s34⟩

/-- C10: `rate_limited_request` stores the new `last_request_time` before the
HTTP request is issued and independently of the request's outcome: the
recorded state and the whole trace before the request event are identical for
a succeeding and a failing request, the `setLast` event strictly precedes the
`request` event, and even a failed call consumes the full budget — the next
acquisition is delayed at least the 1-second minimum past this call's
recorded timestamp. -/
theorem c10_timestamp_before_request (last now extra : ℚ) (hx : 0 ≤ extra)
    (ok : Bool) :
    (rate_limited_request last now extra ok).1
      = (rate_limited_request last now extra true).1 ∧
    (∃ pre, (rate_limited_request last now extra ok).2 = pre ++ [RLEvent.request ok] ∧
      (rate_limited_request last now extra true).2 = pre ++ [RLEvent.request true] ∧
      pre.getLast? = some (RLEvent.setLast (rate_limited_request last now extra ok).1)) ∧
    (∃ i j : Nat, i < j ∧
      ((rate_limited_request last now extra ok).2)[i]?
        = some (RLEvent.setLast (rate_limited_request last now extra ok).1) ∧
      ((rate_limited_request last now extra ok).2)[j]? = some (RLEvent.request ok)) ∧
    AcquireStep last (rate_limited_request last now extra ok).1 ∧
    last + 1 ≤ (rate_limited_request last now extra ok).1 ∧
    (∀ next, AcquireStep (rate_limited_request last now extra ok).1 next →
      (rate_limited_request last now extra ok).1 + 1 ≤ next) := by
  refine ⟨rfl, ?_, ?_, ⟨now, extra, hx, rfl⟩, ?_, ?_⟩
  · refine ⟨[RLEvent.gotTime now]
      ++ (if 0 < rateDelay last now then [RLEvent.slept (rateDelay last now)] else [])
      ++ [RLEvent.setLast (now + rateDelay last now + extra)], ?_, ?_, ?_⟩
    · simp [rate_limited_request]
    · simp [rate_limited_request]
    · by_cases hd : 0 < rateDelay last now <;> simp [rate_limited_request, hd]
  · by_cases hd : 0 < rateDelay last now
    · exact ⟨2, 3, by omega, by simp [rate_limited_request, hd],
        by simp [rate_limited_request, hd]⟩
    · exact ⟨1, 2, by omega, by simp [rate_limited_request, hd],
        by simp [rate_limited_request, hd]⟩
  · exact acquireStep_lower_bound _ _ ⟨now, extra, hx, rfl⟩
  · intro next h
    exact acquireStep_lower_bound _ _ h

/-- C10 witness: a concrete failed call still records the advanced timestamp
at least one second past the previous one. -/
theorem c10_timestamp_witness :
    (0 : ℚ) + 1 ≤ (rate_limited_request 0 0 0 false).1 :=
  (c10_timestamp_before_request 0 0 0 (le_refl 0) false).2.2.2.2.1
